import Mathlib

/-!
Verification of the Azure Digital Twins output binding
(`bindings/azure/digitaltwins/digitaltwins.go`) and of the CloudEvents
envelope helper (package `pubsub`) shipped in the same source tree.

The Go code is shallowly embedded: Go maps (`map[string]string`,
`map[string]interface{}`) become association lists over `String` keys,
the result of `json.Unmarshal` of the request body into
`[]jsonPatchOperation` becomes an `Option (List jsonPatchOperation)`
argument (`none` models an unmarshalling error), and the outbound
`client.Update` calls become an explicit trace of `UpdateCall` values
carried in the result.  `interface{}` patch values, which the binding
never inspects, are modelled by an opaque `Option String`.
-/

set_option autoImplicit false

/-- Lookup in a Go map modelled as an association list: `v, ok := m[k]`.
Keys in a Go map are unique, so the first binding is the binding. -/
def mapLookup {α : Type} : List (String × α) → String → Option α
  | [], _ => none
  | (k0, v0) :: rest, k => if k0 = k then some v0 else mapLookup rest k

/-- Go map assignment `m[k] = v`: replaces the binding of `k` if present,
otherwise appends it. -/
def mapInsert {α : Type} : List (String × α) → String → α → List (String × α)
  | [], k, v => [(k, v)]
  | (k0, v0) :: rest, k, v =>
    if k0 = k then (k, v) :: rest else (k0, v0) :: mapInsert rest k v

namespace digitaltwins

/-- `type jsonPatchOperation struct` from `digitaltwins.go`.  The `Value`
field has Go type `interface{}` and is never inspected by the binding, so
it is modelled opaquely; `TwinID` carries the json tag `"-"` (derived, not
serialized). -/
structure jsonPatchOperation where
  Op : String
  Path : String
  Value : Option String
  TwinID : String
  deriving DecidableEq, Repr

/-- One outbound `client.Update(ctx, twinID, patchDoc, "*", "", "")` call.
The etag precondition and trace arguments are the hardcoded constants
`"*"`, `""`, `""` and are not modelled. -/
structure UpdateCall where
  twinID : String
  patchDoc : List jsonPatchOperation
  deriving DecidableEq, Repr

/-- `*bindings.InvokeResponse` (never constructed by this binding). -/
structure InvokeResponse where
  Data : String
  deriving DecidableEq, Repr

/-- Result of one binding invocation: the returned
`(*bindings.InvokeResponse, error)` pair together with the trace of
outbound `client.Update` calls made along the way. -/
structure InvokeOutcome where
  response : Option InvokeResponse
  err : Option String
  calls : List UpdateCall
  deriving DecidableEq, Repr

/-- `bindings.InvokeRequest`: `Data` is the result of
`json.Unmarshal(req.Data, &operationDoc)` (`none` = unmarshal error),
`Metadata` is the `map[string]string`. -/
structure InvokeRequest where
  Data : Option (List jsonPatchOperation)
  Metadata : List (String × String)
  deriving DecidableEq, Repr

/-- Split a character list at its first `'/'`.  Used to model the lazy
group of the Go regular expression: `(.+?)` grabs the shortest prefix, so
the separating slash of `^/(.+?)\/(.+)$` is the first slash after the
first character of the remainder. -/
def splitFirstSlash : List Char → Option (List Char × List Char)
  | [] => none
  | c :: cs =>
    if c = '/' then some ([], cs)
    else
      match splitFirstSlash cs with
      | some p => some (c :: p.1, p.2)
      | none => none

/-- Model of `r.FindStringSubmatch(path)` for the compiled pattern
`^/(.+?)\/(.+)$`: `some (g1, g2)` is a match with submatches `g1`, `g2`,
`none` is "no match" (so `len(matches) != 3`).  In Go's RE2 syntax `.`
matches any character except `'\n'`, both groups must be non-empty, and
the lazy first group makes the separator the first eligible slash. -/
def pathSplitL (cs : List Char) : Option (List Char × List Char) :=
  match cs with
  | c0 :: c :: rest =>
    if c0 = '/' then
      if '\n' ∈ c :: rest then none
      else
        match splitFirstSlash rest with
        | some p => if p.2.isEmpty then none else some (c :: p.1, p.2)
        | none => none
    else none
  | _ => none

/-- String-level wrapper of `pathSplitL`. -/
def pathSplit (s : String) : Option (String × String) :=
  match pathSplitL s.data with
  | some p => some (String.mk p.1, String.mk p.2)
  | none => none

/-- The per-operation rewrite done by the first pass of
`patchMultipleTwin`: `operationDoc[i].TwinID = matches[1]` and
`operationDoc[i].Path = "/" + matches[2]`.  On a non-matching path the
operation is returned unchanged (that case never arises when the first
pass succeeds). -/
def stripOp (v : jsonPatchOperation) : jsonPatchOperation :=
  match pathSplit v.Path with
  | some p => { v with TwinID := p.1, Path := "/" ++ p.2 }
  | none => v

/-- First pass of `patchMultipleTwin`: extract the twin id from every
operation path, failing the entire request on the first invalid path. -/
def firstPass : List jsonPatchOperation → Option (List jsonPatchOperation)
  | [] => some []
  | v :: rest =>
    match pathSplit v.Path with
    | none => none
    | some p =>
      match firstPass rest with
      | none => none
      | some rest2 => some ({ v with TwinID := p.1, Path := "/" ++ p.2 } :: rest2)

/-- `patchSingleTwin`: on unmarshal error, log and return `nil, nil` with
no outbound call; otherwise issue a single `client.Update` with the whole
operation document and return `nil, nil`. -/
def patchSingleTwin (twinID : String) (data : Option (List jsonPatchOperation)) :
    InvokeOutcome :=
  match data with
  | none => ⟨none, none, []⟩
  | some operationDoc => ⟨none, none, [⟨twinID, operationDoc⟩]⟩

/-- `patchMultipleTwin`: on unmarshal error return `nil, nil`; otherwise
run the validating first pass (any invalid path aborts with `nil, nil`
and no calls), then the second pass issues one `client.Update` per
operation, each with the singleton patch document `[]interface{}{v}`. -/
def patchMultipleTwin (data : Option (List jsonPatchOperation)) : InvokeOutcome :=
  match data with
  | none => ⟨none, none, []⟩
  | some operationDoc =>
    match firstPass operationDoc with
    | none => ⟨none, none, []⟩
    | some ops => ⟨none, none, ops.map (fun v => ⟨v.TwinID, [v]⟩)⟩

/-- `Invoke`: single-twin mode iff `req.Metadata["twinID"]` is present and
non-empty, multi-twin mode otherwise. -/
def Invoke (req : InvokeRequest) : InvokeOutcome :=
  match mapLookup req.Metadata "twinID" with
  | some val => if val = "" then patchMultipleTwin req.Data else patchSingleTwin val req.Data
  | none => patchMultipleTwin req.Data

/-- `azureDigitalTwinsMetadata` struct. -/
structure azureDigitalTwinsMetadata where
  clientID : String
  clientSecret : String
  tenantID : String
  adtInstanceURL : String
  deriving DecidableEq, Repr

/-- Configuration fields of the `AzureDigitalTwins` struct (the logger is
not modelled). -/
structure AzureDigitalTwins where
  clientID : String
  clientSecret : String
  tenantID : String
  adtInstanceURL : String
  deriving DecidableEq, Repr

/-- `bindings.Metadata`. -/
structure Metadata where
  Properties : List (String × String)
  deriving DecidableEq, Repr

/-- `getAzureDigitalTwinsMetadata`: each required property must be present
and non-empty, checked in source order; the first failure produces the
error naming that field. -/
def getAzureDigitalTwinsMetadata (metadata : Metadata) :
    Except String azureDigitalTwinsMetadata :=
  match mapLookup metadata.Properties "clientId" with
  | none => .error "azureDigitalTwins error: missing clientId"
  | some v1 =>
    if v1 = "" then .error "azureDigitalTwins error: missing clientId"
    else
      match mapLookup metadata.Properties "clientSecret" with
      | none => .error "azureDigitalTwins error: missing clientSecret"
      | some v2 =>
        if v2 = "" then .error "azureDigitalTwins error: missing clientSecret"
        else
          match mapLookup metadata.Properties "tenantId" with
          | none => .error "azureDigitalTwins error: missing tenantId"
          | some v3 =>
            if v3 = "" then .error "azureDigitalTwins error: missing tenantId"
            else
              match mapLookup metadata.Properties "adtInstanceUrl" with
              | none => .error "azureDigitalTwins error: missing adtInstanceUrl"
              | some v4 =>
                if v4 = "" then .error "azureDigitalTwins error: missing adtInstanceUrl"
                else .ok ⟨v1, v2, v3, v4⟩

/-- `Init`: parse the metadata; on error return it (the stored
configuration is untouched), otherwise copy the four fields into the
binding. -/
def Init (d : AzureDigitalTwins) (metadata : Metadata) :
    AzureDigitalTwins × Option String :=
  match getAzureDigitalTwinsMetadata metadata with
  | .error e => (d, some e)
  | .ok meta =>
    ({ clientID := meta.clientID, clientSecret := meta.clientSecret,
       tenantID := meta.tenantID, adtInstanceURL := meta.adtInstanceURL }, none)

/-- A required configuration property is "present": bound in the map and
non-empty (`ok && val != ""`). -/
def hasProp (props : List (String × String)) (k : String) : Bool :=
  match mapLookup props k with
  | some v => if v = "" then false else true
  | none => false

end digitaltwins

namespace pubsub

/-- A value of the `map[string]interface{}` cloud-event envelope.  The
envelope builder only ever stores strings; `other` stands for any
non-string JSON value (number, bool, object, array, null) that
`jsoniter.Unmarshal` can put into a decoded envelope. -/
inductive CEValue where
  | str (s : String)
  | other (tag : String)
  deriving DecidableEq, Repr

/-- `fmt.Sprintf("%s", e)`: a string formats as itself; any non-string
value formats as `%!s(...)`, which never parses as a timestamp. -/
def formatValue : CEValue → String
  | .str s => s
  | .other tag => "%!s(" ++ tag ++ ")"

/-- `DefaultCloudEventType` constant. -/
def DefaultCloudEventType : String := "com.dapr.event.sent"

/-- `CloudEventsSpecVersion` constant. -/
def CloudEventsSpecVersion : String := "1.0"

/-- `ContentType` constant. -/
def ContentType : String := "application/cloudevents+json"

/-- `DefaultCloudEventSource` constant. -/
def DefaultCloudEventSource : String := "Dapr"

/-- `DefaultCloudEventDataContentType` constant. -/
def DefaultCloudEventDataContentType : String := "text/plain"

/-- `expirationField` constant. -/
def expirationField : String := "expiration"

/-- `NewCloudEventsEnvelope`.  `data` is the payload as a byte string
(`string(data)` is the identity on this model); `generatedUUID` stands for
the fresh `uuid.New().String()`; `unmarshalOk` is the outcome of
`jsoniter.Unmarshal(data, &j)` with `j interface{}`, i.e. whether the
payload parses as JSON. -/
def NewCloudEventsEnvelope (id source eventType subject topic pubsubName
    dataContentType : String) (data : String) (traceID : String)
    (generatedUUID : String) (unmarshalOk : Bool) : List (String × CEValue) :=
  let id := if id = "" then generatedUUID else id
  let source := if source = "" then DefaultCloudEventSource else source
  let eventType := if eventType = "" then DefaultCloudEventType else eventType
  let dataContentType :=
    if dataContentType = "" then DefaultCloudEventDataContentType else dataContentType
  let dataContentType := if unmarshalOk then "application/json" else dataContentType
  [("id", CEValue.str id),
   ("specversion", CEValue.str CloudEventsSpecVersion),
   ("datacontenttype", CEValue.str dataContentType),
   ("source", CEValue.str source),
   ("type", CEValue.str eventType),
   ("subject", CEValue.str subject),
   ("topic", CEValue.str topic),
   ("pubsubname", CEValue.str pubsubName),
   ("data", CEValue.str data),
   ("traceid", CEValue.str traceID)]

/-- Numeric value of a decimal digit character, `none` otherwise. -/
def digitVal (c : Char) : Option Nat :=
  if c.isDigit then some (c.toNat - 48) else none

/-- Read exactly two decimal digits (Go `getnum` with fixed width). -/
def get2 : List Char → Option (Nat × List Char)
  | a :: b :: rest =>
    match digitVal a, digitVal b with
    | some x, some y => some (x * 10 + y, rest)
    | _, _ => none
  | _ => none

/-- Read exactly four decimal digits (Go `stdLongYear`). -/
def get4 : List Char → Option (Nat × List Char)
  | a :: b :: c :: d :: rest =>
    match digitVal a, digitVal b, digitVal c, digitVal d with
    | some x, some y, some z, some w => some (((x * 10 + y) * 10 + z) * 10 + w, rest)
    | _, _, _, _ => none
  | _ => none

/-- Go's `getnum(value, false)`: one decimal digit, or two when a second
digit follows.  The RFC3339 layout's hour element `15` (`stdHour`) is the
one element `time.Parse` reads non-fixed, so a one-digit hour such as
`"T5:04:05"` is accepted. -/
def getnum : List Char → Option (Nat × List Char)
  | [] => none
  | a :: rest =>
    match digitVal a with
    | none => none
    | some x =>
      match rest with
      | [] => some (x, [])
      | b :: rest2 =>
        match digitVal b with
        | some y => some (x * 10 + y, rest2)
        | none => some (x, rest)

/-- Consume one expected literal character of the layout. -/
def expectChar (c : Char) : List Char → Option (List Char)
  | x :: rest => if x = c then some rest else none
  | [] => none

/-- Decimal value of a digit list. -/
def digitsToNat (ds : List Char) : Nat :=
  ds.foldl (fun a c => a * 10 + (c.toNat - 48)) 0

/-- Optional fractional seconds after the seconds field, as in Go's
`Parse`: a `'.'` or `','` (`commaOrPeriod`) followed by at least one
digit is consumed and the digits are scaled to nanoseconds (Go's
`parseNanoseconds`: values reaching `1e9` are a range error); any other
input is left untouched for the zone element. -/
def parseFrac : List Char → Option (Nat × List Char)
  | c :: d :: rest =>
    if (c = '.' ∨ c = ',') ∧ d.isDigit then
      let ds := d :: rest.takeWhile Char.isDigit
      let r := rest.dropWhile Char.isDigit
      let v := digitsToNat ds
      if 1000000000 ≤ v then none
      else some (if ds.length ≤ 9 then v * 10 ^ (9 - ds.length) else v, r)
    else some (0, c :: d :: rest)
  | r => some (0, r)

/-- The `Z07:00` layout element: `'Z'` or a signed `hh:mm` offset, in
seconds. -/
def parseZone : List Char → Option (Int × List Char)
  | [] => none
  | c :: r =>
    if c = 'Z' then some (0, r)
    else if c = '+' ∨ c = '-' then
      match get2 r with
      | some (hh, r1) =>
        match expectChar ':' r1 with
        | some r2 =>
          match get2 r2 with
          | some (mm, r3) =>
            let off : Int := Int.ofNat (hh * 3600 + mm * 60)
            some (if c = '-' then -off else off, r3)
          | none => none
        | none => none
      | none => none
    else none

/-- Gregorian leap year, as in Go's `isLeap`. -/
def isLeap (y : Nat) : Bool :=
  y % 4 == 0 && (y % 100 != 0 || y % 400 == 0)

/-- Days in a month, as in Go's `daysIn`. -/
def daysInMonth (y m : Nat) : Nat :=
  if m = 2 then (if isLeap y then 29 else 28)
  else if m = 4 ∨ m = 6 ∨ m = 9 ∨ m = 11 then 30
  else 31

/-- Days since the Unix epoch of a proleptic Gregorian civil date
(Hinnant's `days_from_civil`, with C-style truncating division). -/
def daysFromCivil (y m d : Int) : Int :=
  let y2 := if m ≤ 2 then y - 1 else y
  let era := Int.tdiv (if 0 ≤ y2 then y2 else y2 - 399) 400
  let yoe := y2 - era * 400
  let mp := if m ≤ 2 then m + 9 else m - 3
  let doy := Int.tdiv (153 * mp + 2) 5 + d - 1
  let doe := yoe * 365 + Int.tdiv yoe 4 - Int.tdiv yoe 100 + doy
  era * 146097 + doe - 719468

/-- Civil date from days since the Unix epoch (Hinnant's
`civil_from_days`). -/
def civilFromDays (z0 : Int) : Int × Int × Int :=
  let z := z0 + 719468
  let era := Int.tdiv (if 0 ≤ z then z else z - 146096) 146097
  let doe := z - era * 146097
  let yoe := Int.tdiv (doe - Int.tdiv doe 1460 + Int.tdiv doe 36524 - Int.tdiv doe 146096) 365
  let y := yoe + era * 400
  let doy := doe - (365 * yoe + Int.tdiv yoe 4 - Int.tdiv yoe 100)
  let mp := Int.tdiv (5 * doy + 2) 153
  let d := doy - Int.tdiv (153 * mp + 2) 5 + 1
  let m := if mp < 10 then mp + 3 else mp - 9
  (if m ≤ 2 then y + 1 else y, m, d)

/-- Model of Go's `time.Parse(time.RFC3339, s)`, returning the parsed
instant as nanoseconds since the Unix epoch (the instant is absolute, so
a later `.UTC()` does not change it).  The layout
`2006-01-02T15:04:05Z07:00` demands four-digit year and two-digit month,
day, minute and second with literal separators, the hour non-fixed (one
or two digits, Go's `stdHour` is read by `getnum(value, false)`),
optional fractional seconds after `'.'` or `','`, and a `Z` or signed
`hh:mm` zone; month, day-in-month, hour, minute and second are
range-checked and trailing input is an error. -/
def parseRFC3339 (s : String) : Option Int := do
  let (y, r) ← get4 s.data
  let r ← expectChar '-' r
  let (mo, r) ← get2 r
  let r ← expectChar '-' r
  let (d, r) ← get2 r
  let r ← expectChar 'T' r
  let (h, r) ← getnum r
  let r ← expectChar ':' r
  let (mi, r) ← get2 r
  let r ← expectChar ':' r
  let (sec, r) ← get2 r
  let (ns, r) ← parseFrac r
  let (off, r) ← parseZone r
  if 1 ≤ mo ∧ mo ≤ 12 ∧ 1 ≤ d ∧ d ≤ daysInMonth y mo ∧ h ≤ 23 ∧ mi ≤ 59 ∧
      sec ≤ 59 ∧ r = ([] : List Char) then
    pure ((daysFromCivil (Int.ofNat y) (Int.ofNat mo) (Int.ofNat d) * 86400
      + Int.ofNat (h * 3600 + mi * 60 + sec) - off) * 1000000000 + Int.ofNat ns)
  else none

/-- Left-pad to two digits. -/
def pad2 (n : Nat) : String :=
  if n < 10 then "0" ++ toString n else toString n

/-- Left-pad to four digits. -/
def pad4 (n : Nat) : String :=
  if n < 10 then "000" ++ toString n
  else if n < 100 then "00" ++ toString n
  else if n < 1000 then "0" ++ toString n
  else toString n

/-- Model of Go's `t.Format(time.RFC3339)` for a UTC instant given as
nanoseconds since the Unix epoch: the RFC3339 layout carries no
fractional second, so the sub-second part is dropped, and the zone prints
as `Z`. -/
def formatRFC3339 (t : Int) : String :=
  let s := Int.fdiv t 1000000000
  let days := Int.fdiv s 86400
  let rem := (s - days * 86400).toNat
  let c := civilFromDays days
  pad4 c.1.toNat ++ "-" ++ pad2 c.2.1.toNat ++ "-" ++ pad2 c.2.2.toNat ++ "T"
    ++ pad2 (rem / 3600) ++ ":" ++ pad2 (rem % 3600 / 60) ++ ":" ++ pad2 (rem % 60) ++ "Z"

/-- `HasExpired`: read the `expiration` field; when present and not equal
to the empty string, parse its `%s`-formatting as RFC3339 and compare
strictly against the current time (`now`, nanoseconds since the epoch);
any parse failure, absence or emptiness yields `false`. -/
def HasExpired (cloudEvent : List (String × CEValue)) (now : Int) : Bool :=
  match mapLookup cloudEvent expirationField with
  | some e =>
    if e = CEValue.str "" then false
    else
      match parseRFC3339 (formatValue e) with
      | none => false
      | some expiration => decide (expiration < now)
  | none => false

/-- Modelled from the spec: the pubsub `Feature` capability type is
declared elsewhere in this repository (not under src/); the spec
describes capability checks only as "a feature-set membership test", so a
feature is an opaque tag. -/
abbrev Feature : Type := String

/-- Modelled from the spec: the native message-TTL capability tag
(`FeatureMessageTTL`), declared elsewhere in this repository (not under
src/). -/
def FeatureMessageTTL : Feature := "MESSAGE_TTL"

/-- Modelled from the spec: `Feature.IsPresent`, the "feature-set
membership test" on the component's advertised feature set. -/
def featureIsPresent (f : Feature) (features : List Feature) : Bool :=
  features.contains f

/-- Seconds written as `<digits>s`, the shape of the spec's TTL example
`"10s"`. -/
def parseDurationSeconds (s : String) : Option Nat :=
  match s.data.getLast? with
  | some c =>
    if c = 's' then
      let ds := s.data.dropLast
      if ds.isEmpty then none
      else if ds.all Char.isDigit then some (digitsToNat ds) else none
    else none
  | none => none

/-- Modelled from the spec: `contrib_metadata.TryGetTTL` is declared
elsewhere in this repository (not under src/); the spec says it "reads a
TTL duration from metadata" and its example passes `metadata={ttl:
"10s"}`, so the model reads the key `"ttl"` as a number of seconds
followed by `s` and returns the duration in nanoseconds (`none` models
`hasTTL == false`). -/
def TryGetTTL (metadata : List (String × String)) : Option Int :=
  match mapLookup metadata "ttl" with
  | some s =>
    match parseDurationSeconds s with
    | some n => some (Int.ofNat n * 1000000000)
    | none => none
  | none => none

/-- `ApplyMetadata`: when the metadata carries a TTL and the component
does not advertise the native message-TTL feature, write
`expiration = now + ttl` in RFC3339 form into the envelope; otherwise
leave the envelope untouched.  `now` is `time.Now().UTC()` in nanoseconds
since the epoch. -/
def ApplyMetadata (cloudEvent : List (String × CEValue))
    (componentFeatures : List Feature) (metadata : List (String × String))
    (now : Int) : List (String × CEValue) :=
  match TryGetTTL metadata with
  | some ttl =>
    if featureIsPresent FeatureMessageTTL componentFeatures then cloudEvent
    else mapInsert cloudEvent expirationField (CEValue.str (formatRFC3339 (now + ttl)))
  | none => cloudEvent

end pubsub

namespace digitaltwins

theorem splitFirstSlash_sound : ∀ (cs : List Char) (p : List Char × List Char),
    splitFirstSlash cs = some p → cs = p.1 ++ '/' :: p.2 := by
  intro cs
  induction cs with
  | nil => intro p h; simp [splitFirstSlash] at h
  | cons c rest ih =>
    intro p h
    unfold splitFirstSlash at h
    by_cases hc : c = '/'
    · rw [if_pos hc] at h
      cases h
      simp [hc]
    · rw [if_neg hc] at h
      cases hsp : splitFirstSlash rest with
      | none => rw [hsp] at h; cases h
      | some q =>
        rw [hsp] at h
        cases h
        simp [ih q hsp]

theorem pathSplitL_sound (cs : List Char) (p : List Char × List Char)
    (h : pathSplitL cs = some p) :
    cs = '/' :: (p.1 ++ '/' :: p.2) ∧ p.1 ≠ [] ∧ p.2 ≠ [] := by
  match cs with
  | [] => simp [pathSplitL] at h
  | [c0] => simp [pathSplitL] at h
  | c0 :: c :: rest =>
    simp only [pathSplitL] at h
    by_cases h0 : c0 = '/'
    · rw [if_pos h0] at h
      by_cases hn : '\n' ∈ c :: rest
      · rw [if_pos hn] at h; cases h
      · rw [if_neg hn] at h
        cases hsp : splitFirstSlash rest with
        | none => simp [hsp] at h
        | some q =>
          simp only [hsp] at h
          by_cases he : q.2.isEmpty
          · rw [if_pos he] at h; cases h
          · rw [if_neg he] at h
            cases h
            have hq := splitFirstSlash_sound rest q hsp
            refine ⟨?_, by simp, ?_⟩
            · simp [h0, hq]
            · simpa [List.isEmpty_iff] using he
    · rw [if_neg h0] at h
      cases h

theorem pathSplit_sound (s : String) (g1 g2 : String)
    (h : pathSplit s = some (g1, g2)) :
    s.data = '/' :: (g1.data ++ '/' :: g2.data) ∧ g1.data ≠ [] ∧ g2.data ≠ [] := by
  unfold pathSplit at h
  cases hp : pathSplitL s.data with
  | none => rw [hp] at h; cases h
  | some q =>
    rw [hp] at h
    cases h
    exact pathSplitL_sound s.data q hp

theorem slash_append_data (g : String) : ("/" ++ g).data = '/' :: g.data := by
  cases g
  rfl

theorem firstPass_all_valid (ops : List jsonPatchOperation)
    (h : ∀ v ∈ ops, (pathSplit v.Path).isSome = true) :
    firstPass ops = some (ops.map stripOp) := by
  induction ops with
  | nil => rfl
  | cons v rest ih =>
    have hv := h v (List.mem_cons_self v rest)
    have hr := ih (fun w hw => h w (List.mem_cons_of_mem v hw))
    cases hps : pathSplit v.Path with
    | none => rw [hps] at hv; simp at hv
    | some p => simp [firstPass, hps, hr, stripOp]

theorem firstPass_none_of_invalid (ops : List jsonPatchOperation)
    (h : ∃ v ∈ ops, pathSplit v.Path = none) : firstPass ops = none := by
  induction ops with
  | nil => simp at h
  | cons v rest ih =>
    obtain ⟨w, hw, hwn⟩ := h
    rcases List.mem_cons.mp hw with hwv | hwr
    · subst hwv
      simp [firstPass, hwn]
    · cases hps : pathSplit v.Path with
      | none => simp [firstPass, hps]
      | some p => simp [firstPass, hps, ih ⟨w, hwr, hwn⟩]

/-- C1 (counterexample): the claim reads the demultiplexer as grouping the
batch into per-twin operation lists with one update call per twin.  On
the valid batch touching twins `twinA`, `twinB`, `twinA` the code issues
three singleton update calls — two of them to the same twin `twinA` — so
the submitted calls are not one-per-twin (the twin-id list of the call
trace is not duplicate-free, which one call per distinct twin would
force). -/
theorem patchMultipleTwin_not_grouped_by_twin :
    ((patchMultipleTwin (some
        [⟨"replace", "/twinA/prop1", some "1", ""⟩,
         ⟨"replace", "/twinB/prop2", some "2", ""⟩,
         ⟨"add", "/twinA/prop3", none, ""⟩])).calls.map UpdateCall.twinID
      = ["twinA", "twinB", "twinA"])
    ∧ ¬ ((patchMultipleTwin (some
        [⟨"replace", "/twinA/prop1", some "1", ""⟩,
         ⟨"replace", "/twinB/prop2", some "2", ""⟩,
         ⟨"add", "/twinA/prop3", none, ""⟩])).calls.map UpdateCall.twinID).Nodup := by
  constructor
  · rfl
  · decide

/-- C1 (amended): for every batch in which every operation's path matches
the two-segment pattern `^/(.+?)/(.+)$`, `patchMultipleTwin` returns nil
response and nil error and submits one update call per operation, in the
original input order, each call carrying the singleton patch document of
that operation tagged with its twin id and with the leading twin-id
segment stripped; the stripped path is `"/"` followed by the remainder,
and re-attaching the twin-id segment to it recovers the original path.
(Operations addressing the same twin are not grouped into one call.) -/
theorem patchMultipleTwin_valid_batch_calls (ops : List jsonPatchOperation)
    (h : ∀ v ∈ ops, (pathSplit v.Path).isSome = true) :
    patchMultipleTwin (some ops)
      = ⟨none, none, ops.map (fun v => ⟨(stripOp v).TwinID, [stripOp v]⟩)⟩
    ∧ ∀ v ∈ ops, v.Path.data
        = '/' :: ((stripOp v).TwinID.data ++ (stripOp v).Path.data) := by
  constructor
  · simp [patchMultipleTwin, firstPass_all_valid ops h, List.map_map, Function.comp]
  · intro v hv
    have hv2 := h v hv
    cases hps : pathSplit v.Path with
    | none => rw [hps] at hv2; simp at hv2
    | some p =>
      obtain ⟨g1, g2⟩ := p
      have hs := pathSplit_sound v.Path g1 g2 hps
      simp [stripOp, hps, slash_append_data, hs.1]

/-- C1 (witness): the amended theorem evaluated on a concrete two-twin
batch. -/
theorem patchMultipleTwin_valid_batch_calls_witness :
    patchMultipleTwin (some
        [⟨"replace", "/twinA/prop1", some "1", ""⟩,
         ⟨"add", "/twinB/prop2", none, ""⟩])
      = ⟨none, none,
         [⟨"twinA", [⟨"replace", "/prop1", some "1", "twinA"⟩]⟩,
          ⟨"twinB", [⟨"add", "/prop2", none, "twinB"⟩]⟩]⟩ := by
  have h := patchMultipleTwin_valid_batch_calls
    [⟨"replace", "/twinA/prop1", some "1", ""⟩, ⟨"add", "/twinB/prop2", none, ""⟩]
    (by decide)
  rw [h.1]
  decide

/-- C2: a batch containing at least one operation whose path does not
match the two-segment pattern is rejected whole by the validation pass:
`patchMultipleTwin` returns nil response and nil error and issues no
update call at all, including for the operations whose paths are valid. -/
theorem patchMultipleTwin_invalid_path_rejects (ops : List jsonPatchOperation)
    (h : ∃ v ∈ ops, pathSplit v.Path = none) :
    patchMultipleTwin (some ops) = ⟨none, none, []⟩ := by
  simp [patchMultipleTwin, firstPass_none_of_invalid ops h]

/-- C3 (counterexample): the claim selects single-twin mode when the
metadata carries a non-empty value under the key "twinId"; the code reads
`req.Metadata["twinID"]` (capital D) and Go map lookup is case-sensitive.
A request binding "twinId" to the non-empty twin id "twinT" is routed to
the multi-twin demultiplexer instead: the only outbound call addresses
twin "twinA" taken from the operation path, which gets stripped to
"/prop", and the outcome differs from the single update call against
"twinT" with the raw batch that the claim prescribes. -/
theorem invoke_twinId_key_not_selected :
    Invoke ⟨some [⟨"replace", "/twinA/prop", some "5", ""⟩], [("twinId", "twinT")]⟩
      = ⟨none, none, [⟨"twinA", [⟨"replace", "/prop", some "5", "twinA"⟩]⟩]⟩
    ∧ Invoke ⟨some [⟨"replace", "/twinA/prop", some "5", ""⟩], [("twinId", "twinT")]⟩
      ≠ patchSingleTwin "twinT" (some [⟨"replace", "/twinA/prop", some "5", ""⟩]) := by
  constructor
  · rfl
  · decide

/-- C3 (amended): single-twin mode is selected exactly when the request
metadata contains a non-empty value under the key "twinID" (capital D,
not "twinId"); in that mode the deserialized batch is submitted as one
update call against that twin (and nothing is submitted on an unmarshal
error), and in every other case the multi-twin demultiplexer runs. -/
theorem invoke_mode_selection (req : InvokeRequest) :
    ((∃ val, mapLookup req.Metadata "twinID" = some val ∧ val ≠ "") →
        Invoke req = patchSingleTwin ((mapLookup req.Metadata "twinID").getD "") req.Data)
    ∧ (¬ (∃ val, mapLookup req.Metadata "twinID" = some val ∧ val ≠ "") →
        Invoke req = patchMultipleTwin req.Data)
    ∧ (∀ t ops, (patchSingleTwin t (some ops)).calls = [⟨t, ops⟩])
    ∧ (∀ t, (patchSingleTwin t none).calls = []) := by
  refine ⟨?_, ?_, fun t ops => rfl, fun t => rfl⟩
  · rintro ⟨val, hval, hne⟩
    simp [Invoke, hval, hne]
  · intro hnot
    cases hm : mapLookup req.Metadata "twinID" with
    | none => simp [Invoke, hm]
    | some val =>
      have hv : val = "" := by
        by_contra hne
        exact hnot ⟨val, hm, hne⟩
      simp [Invoke, hm, hv]

/-- C3 (witness): a request carrying metadata key "twinID" with value
"mytwin" goes one update call against "mytwin" with the whole batch. -/
theorem invoke_mode_selection_witness :
    Invoke ⟨some [⟨"replace", "/a/b", none, ""⟩], [("twinID", "mytwin")]⟩
      = patchSingleTwin "mytwin" (some [⟨"replace", "/a/b", none, ""⟩])
    ∧ (patchSingleTwin "mytwin" (some [⟨"replace", "/a/b", none, ""⟩])).calls
      = [⟨"mytwin", [⟨"replace", "/a/b", none, ""⟩]⟩] := by
  refine ⟨?_, (invoke_mode_selection
      ⟨some [⟨"replace", "/a/b", none, ""⟩], [("twinID", "mytwin")]⟩).2.2.1 "mytwin" _⟩
  exact (invoke_mode_selection
      ⟨some [⟨"replace", "/a/b", none, ""⟩], [("twinID", "mytwin")]⟩).1
    ⟨"mytwin", by decide, by decide⟩

/-- C4: whatever the request — malformed batch JSON, an invalid path, or
a fully valid batch — `Invoke` returns the empty (nil) response together
with a nil error, so the caller cannot distinguish failure from success
through the returned values. -/
theorem invoke_always_nil_nil (req : InvokeRequest) :
    (Invoke req).response = none ∧ (Invoke req).err = none := by
  have hms : ∀ (t : String) (p : Option (List jsonPatchOperation)),
      (patchSingleTwin t p).response = none ∧ (patchSingleTwin t p).err = none := by
    intro t p
    cases p <;> exact ⟨rfl, rfl⟩
  have hmm : ∀ p : Option (List jsonPatchOperation),
      (patchMultipleTwin p).response = none ∧ (patchMultipleTwin p).err = none := by
    intro p
    cases p with
    | none => exact ⟨rfl, rfl⟩
    | some ops => cases h : firstPass ops <;> simp [patchMultipleTwin, h]
  cases h : mapLookup req.Metadata "twinID" with
  | none =>
    simp only [Invoke, h]
    exact hmm req.Data
  | some val =>
    by_cases hv : val = ""
    · simp only [Invoke, h, if_pos hv]
      exact hmm req.Data
    · simp only [Invoke, h, if_neg hv]
      exact hms val req.Data

/-- C9: `Init` succeeds exactly when the four required configuration
properties are present with non-empty values; on failure it reports the
first missing field in the order clientId, clientSecret, tenantId,
adtInstanceUrl and leaves the stored configuration unchanged. -/
theorem init_required_fields (d : AzureDigitalTwins) (md : Metadata) :
    ((Init d md).2 = none ↔
      (hasProp md.Properties "clientId" = true ∧
       hasProp md.Properties "clientSecret" = true ∧
       hasProp md.Properties "tenantId" = true ∧
       hasProp md.Properties "adtInstanceUrl" = true))
    ∧ (hasProp md.Properties "clientId" = false →
        Init d md = (d, some "azureDigitalTwins error: missing clientId"))
    ∧ (hasProp md.Properties "clientId" = true →
       hasProp md.Properties "clientSecret" = false →
        Init d md = (d, some "azureDigitalTwins error: missing clientSecret"))
    ∧ (hasProp md.Properties "clientId" = true →
       hasProp md.Properties "clientSecret" = true →
       hasProp md.Properties "tenantId" = false →
        Init d md = (d, some "azureDigitalTwins error: missing tenantId"))
    ∧ (hasProp md.Properties "clientId" = true →
       hasProp md.Properties "clientSecret" = true →
       hasProp md.Properties "tenantId" = true →
       hasProp md.Properties "adtInstanceUrl" = false →
        Init d md = (d, some "azureDigitalTwins error: missing adtInstanceUrl"))
    ∧ ((Init d md).2.isSome = true → (Init d md).1 = d) := by
  cases hc1 : mapLookup md.Properties "clientId" with
  | none => simp [Init, getAzureDigitalTwinsMetadata, hasProp, hc1]
  | some v1 =>
    by_cases hv1 : v1 = ""
    · simp [Init, getAzureDigitalTwinsMetadata, hasProp, hc1, hv1]
    · cases hc2 : mapLookup md.Properties "clientSecret" with
      | none => simp [Init, getAzureDigitalTwinsMetadata, hasProp, hc1, hv1, hc2]
      | some v2 =>
        by_cases hv2 : v2 = ""
        · simp [Init, getAzureDigitalTwinsMetadata, hasProp, hc1, hv1, hc2, hv2]
        · cases hc3 : mapLookup md.Properties "tenantId" with
          | none => simp [Init, getAzureDigitalTwinsMetadata, hasProp, hc1, hv1, hc2, hv2, hc3]
          | some v3 =>
            by_cases hv3 : v3 = ""
            · simp [Init, getAzureDigitalTwinsMetadata, hasProp, hc1, hv1, hc2, hv2, hc3, hv3]
            · cases hc4 : mapLookup md.Properties "adtInstanceUrl" with
              | none =>
                simp [Init, getAzureDigitalTwinsMetadata, hasProp,
                  hc1, hv1, hc2, hv2, hc3, hv3, hc4]
              | some v4 =>
                by_cases hv4 : v4 = ""
                · simp [Init, getAzureDigitalTwinsMetadata, hasProp,
                    hc1, hv1, hc2, hv2, hc3, hv3, hc4, hv4]
                · simp [Init, getAzureDigitalTwinsMetadata, hasProp,
                    hc1, hv1, hc2, hv2, hc3, hv3, hc4, hv4]

/-- C9 (witness): a configuration providing only clientId and tenantId
fails naming clientSecret, the first missing field, and leaves the
binding's stored configuration unchanged. -/
theorem init_required_fields_witness :
    Init ⟨"a", "b", "c", "d"⟩ ⟨[("clientId", "cid"), ("tenantId", "tid")]⟩
      = (⟨"a", "b", "c", "d"⟩, some "azureDigitalTwins error: missing clientSecret") :=
  (init_required_fields ⟨"a", "b", "c", "d"⟩
      ⟨[("clientId", "cid"), ("tenantId", "tid")]⟩).2.2.1 (by decide) (by decide)

/-- C2 (witness): a batch whose second operation has a one-segment path is
rejected although its first operation is valid. -/
theorem patchMultipleTwin_invalid_path_rejects_witness :
    patchMultipleTwin (some
        [⟨"replace", "/twinA/prop1", some "1", ""⟩,
         ⟨"remove", "/noSecondSegment", none, ""⟩])
      = ⟨none, none, []⟩ :=
  patchMultipleTwin_invalid_path_rejects
    [⟨"replace", "/twinA/prop1", some "1", ""⟩,
     ⟨"remove", "/noSecondSegment", none, ""⟩]
    ⟨⟨"remove", "/noSecondSegment", none, ""⟩, by decide, by decide⟩

end digitaltwins

namespace pubsub

/-- C5: when the payload parses as JSON (the `jsoniter.Unmarshal`
performed by the builder succeeds), the envelope's datacontenttype is
forced to "application/json", overriding any caller-supplied or defaulted
content type; when it does not parse, datacontenttype is the
caller-supplied value when non-empty and "text/plain" otherwise. -/
theorem newCloudEventsEnvelope_datacontenttype
    (id source eventType subject topic pubsubName dct data traceID uuid : String) :
    (mapLookup (NewCloudEventsEnvelope id source eventType subject topic pubsubName
        dct data traceID uuid true) "datacontenttype"
      = some (CEValue.str "application/json"))
    ∧ (dct ≠ "" →
        mapLookup (NewCloudEventsEnvelope id source eventType subject topic pubsubName
          dct data traceID uuid false) "datacontenttype" = some (CEValue.str dct))
    ∧ (dct = "" →
        mapLookup (NewCloudEventsEnvelope id source eventType subject topic pubsubName
          dct data traceID uuid false) "datacontenttype"
          = some (CEValue.str "text/plain")) := by
  refine ⟨?_, ?_, ?_⟩
  · simp [NewCloudEventsEnvelope, mapLookup]
  · intro h
    simp [NewCloudEventsEnvelope, mapLookup, h]
  · intro h
    simp [NewCloudEventsEnvelope, mapLookup, h, DefaultCloudEventDataContentType]

/-- C5 (witness): a JSON payload (here the JSON number `42`) overrides the
caller value "text/plain" with "application/json"; a non-JSON payload
keeps the caller value. -/
theorem newCloudEventsEnvelope_datacontenttype_witness :
    mapLookup (NewCloudEventsEnvelope "i" "s" "e" "sub" "top" "pn" "text/plain"
        "42" "tr" "u" true) "datacontenttype" = some (CEValue.str "application/json")
    ∧ mapLookup (NewCloudEventsEnvelope "i" "s" "e" "sub" "top" "pn" "text/plain"
        "plain payload" "tr" "u" false) "datacontenttype"
      = some (CEValue.str "text/plain") :=
  ⟨(newCloudEventsEnvelope_datacontenttype
      "i" "s" "e" "sub" "top" "pn" "text/plain" "42" "tr" "u").1,
   (newCloudEventsEnvelope_datacontenttype
      "i" "s" "e" "sub" "top" "pn" "text/plain" "plain payload" "tr" "u").2.1 (by decide)⟩

/-- Leniencies of `time.Parse(time.RFC3339, ·)` inherited from the
generic layout parser and reflected by the embedding: a one-digit hour
parses (the hour element is read non-fixed), a comma works as
fractional-second separator, and `HasExpired` therefore fires on a past
expiration written with a one-digit hour. -/
theorem parseRFC3339_lenient_cases :
    parseRFC3339 "2000-01-01T5:04:05Z" = some 946703045000000000
    ∧ parseRFC3339 "2000-01-01T00:00:00,5Z" = some 946684800500000000
    ∧ HasExpired [("expiration", CEValue.str "2000-01-01T5:04:05Z")]
        (1700000000 * 1000000000) = true := by
  refine ⟨?_, ?_, ?_⟩ <;> decide

/-- C6: `HasExpired` returns true exactly when the envelope has an
expiration entry that is not the empty string, whose `%s`-formatting
parses as an RFC3339 timestamp, and whose instant lies strictly before
the current time; absence, emptiness and parse failure all yield false
(fail-open). -/
theorem hasExpired_iff (ce : List (String × CEValue)) (now : Int) :
    HasExpired ce now = true ↔
      ∃ e, mapLookup ce expirationField = some e ∧ e ≠ CEValue.str "" ∧
        ∃ t, parseRFC3339 (formatValue e) = some t ∧ t < now := by
  cases h : mapLookup ce expirationField with
  | none => simp [HasExpired, h]
  | some e =>
    by_cases he : e = CEValue.str ""
    · simp [HasExpired, h, he]
    · cases hp : parseRFC3339 (formatValue e) with
      | none => simp [HasExpired, h, he, hp]
      | some t => simp [HasExpired, h, he, hp]

/-- C7: `ApplyMetadata` writes `expiration = now + ttl` in RFC3339 form
into the envelope exactly when the metadata carries a TTL duration and
the feature set lacks the native message-TTL feature; with no TTL, or
with native TTL advertised, the envelope is returned completely
unmodified. -/
theorem applyMetadata_ttl (ce : List (String × CEValue))
    (features : List Feature) (md : List (String × String)) (now : Int) :
    (∀ ttl, TryGetTTL md = some ttl →
        featureIsPresent FeatureMessageTTL features = false →
        ApplyMetadata ce features md now
          = mapInsert ce expirationField (CEValue.str (formatRFC3339 (now + ttl))))
    ∧ (TryGetTTL md = none → ApplyMetadata ce features md now = ce)
    ∧ (featureIsPresent FeatureMessageTTL features = true →
        ApplyMetadata ce features md now = ce) := by
  refine ⟨?_, ?_, ?_⟩
  · intro ttl ht hf
    simp [ApplyMetadata, ht, hf]
  · intro ht
    simp [ApplyMetadata, ht]
  · intro hf
    cases ht : TryGetTTL md with
    | none => simp [ApplyMetadata, ht]
    | some ttl => simp [ApplyMetadata, ht, hf]

/-- C7 (witness): with `metadata = {ttl: "10s"}`, no advertised features
and current time 0, the expiration becomes "1970-01-01T00:00:10Z" (ten
seconds past the epoch, RFC3339); with the native message-TTL feature
advertised the envelope is unchanged. -/
theorem applyMetadata_ttl_witness :
    ApplyMetadata [("id", CEValue.str "x")] [] [("ttl", "10s")] 0
      = [("id", CEValue.str "x"), ("expiration", CEValue.str "1970-01-01T00:00:10Z")]
    ∧ ApplyMetadata [("id", CEValue.str "x")] [FeatureMessageTTL] [("ttl", "10s")] 0
      = [("id", CEValue.str "x")] := by
  constructor
  · have h := (applyMetadata_ttl [("id", CEValue.str "x")] [] [("ttl", "10s")] 0).1
      (10 * 1000000000) (by decide) (by decide)
    rw [h]
    decide
  · exact (applyMetadata_ttl [("id", CEValue.str "x")] [FeatureMessageTTL]
      [("ttl", "10s")] 0).2.2 (by decide)

/-- C10: the built envelope has exactly the ten fields id, specversion,
datacontenttype, source, type, subject, topic, pubsubname, data and
traceid; specversion is "1.0"; source defaults to "Dapr" and type to
"com.dapr.event.sent" on empty caller input (and keep the caller values
otherwise); and data is always the payload bytes as a string, never a
parsed JSON object, whatever the outcome of the JSON detection. -/
theorem newCloudEventsEnvelope_fields
    (id source eventType subject topic pubsubName dct data traceID uuid : String)
    (unmarshalOk : Bool) :
    ((NewCloudEventsEnvelope id source eventType subject topic pubsubName dct data
        traceID uuid unmarshalOk).map Prod.fst
      = ["id", "specversion", "datacontenttype", "source", "type", "subject", "topic",
         "pubsubname", "data", "traceid"])
    ∧ mapLookup (NewCloudEventsEnvelope id source eventType subject topic pubsubName
        dct data traceID uuid unmarshalOk) "specversion" = some (CEValue.str "1.0")
    ∧ (source = "" →
        mapLookup (NewCloudEventsEnvelope id source eventType subject topic pubsubName
          dct data traceID uuid unmarshalOk) "source" = some (CEValue.str "Dapr"))
    ∧ (source ≠ "" →
        mapLookup (NewCloudEventsEnvelope id source eventType subject topic pubsubName
          dct data traceID uuid unmarshalOk) "source" = some (CEValue.str source))
    ∧ (eventType = "" →
        mapLookup (NewCloudEventsEnvelope id source eventType subject topic pubsubName
          dct data traceID uuid unmarshalOk) "type"
          = some (CEValue.str "com.dapr.event.sent"))
    ∧ (eventType ≠ "" →
        mapLookup (NewCloudEventsEnvelope id source eventType subject topic pubsubName
          dct data traceID uuid unmarshalOk) "type" = some (CEValue.str eventType))
    ∧ mapLookup (NewCloudEventsEnvelope id source eventType subject topic pubsubName
        dct data traceID uuid unmarshalOk) "data" = some (CEValue.str data) := by
  refine ⟨?_, ?_, ?_, ?_, ?_, ?_, ?_⟩
  · simp [NewCloudEventsEnvelope]
  · simp [NewCloudEventsEnvelope, mapLookup, CloudEventsSpecVersion]
  · intro h
    simp [NewCloudEventsEnvelope, mapLookup, h, DefaultCloudEventSource]
  · intro h
    simp [NewCloudEventsEnvelope, mapLookup, h]
  · intro h
    simp [NewCloudEventsEnvelope, mapLookup, h, DefaultCloudEventType]
  · intro h
    simp [NewCloudEventsEnvelope, mapLookup, h]
  · simp [NewCloudEventsEnvelope, mapLookup]

/-- C10 (witness): with empty id, source and type, payload "hello" and a
supplied generated UUID, the envelope carries the default source and
type, specversion "1.0" and the raw payload string. -/
theorem newCloudEventsEnvelope_fields_witness :
    ((NewCloudEventsEnvelope "" "" "" "sub" "top" "pn" "" "hello" "tr" "u1"
        false).map Prod.fst
      = ["id", "specversion", "datacontenttype", "source", "type", "subject", "topic",
         "pubsubname", "data", "traceid"])
    ∧ mapLookup (NewCloudEventsEnvelope "" "" "" "sub" "top" "pn" "" "hello" "tr" "u1"
        false) "source" = some (CEValue.str "Dapr")
    ∧ mapLookup (NewCloudEventsEnvelope "" "" "" "sub" "top" "pn" "" "hello" "tr" "u1"
        false) "type" = some (CEValue.str "com.dapr.event.sent")
    ∧ mapLookup (NewCloudEventsEnvelope "" "" "" "sub" "top" "pn" "" "hello" "tr" "u1"
        false) "data" = some (CEValue.str "hello") :=
  ⟨(newCloudEventsEnvelope_fields "" "" "" "sub" "top" "pn" "" "hello" "tr" "u1"
      false).1,
   (newCloudEventsEnvelope_fields "" "" "" "sub" "top" "pn" "" "hello" "tr" "u1"
      false).2.2.1 rfl,
   (newCloudEventsEnvelope_fields "" "" "" "sub" "top" "pn" "" "hello" "tr" "u1"
      false).2.2.2.2.1 rfl,
   (newCloudEventsEnvelope_fields "" "" "" "sub" "top" "pn" "" "hello" "tr" "u1"
      false).2.2.2.2.2.2⟩

end pubsub
